import Mathlib

/-!
Verification of the HealthSync healthcare portal: a shallow embedding of the
row-level-security policies (supabase/migrations/20250709101518_lingering_portal.sql),
the chat send/fetch logic (DoctorChat / Chat), the checkup status update
(DoctorCheckups), the health-log queries (DoctorDashboard / HealthHistory) and the
health-log submission (LogHealth), together with proofs of the spec's claims.
-/

/-- The `role` column of `users`: `CHECK (role IN ('doctor', 'patient'))`. -/
inductive Role where
  | doctor
  | patient
deriving DecidableEq

/-- The outcome of a row-level-security policy evaluation. -/
inductive Decision where
  | Allow
  | Deny
deriving DecidableEq

/-- The `status` column of `checkups`:
`CHECK (status IN ('upcoming', 'completed', 'cancelled'))`. -/
inductive CheckupStatus where
  | upcoming
  | completed
  | cancelled
deriving DecidableEq

/-- A row of the `users` table. -/
structure UserRow where
  id : Nat
  email : String
  full_name : String
  role : Role
  avatar_url : Option String
deriving DecidableEq

/-- A row of the `health_logs` table (dates abstracted to naturals,
`sleep_hours decimal(3,1)` modelled as a rational). -/
structure HealthLogRow where
  id : Nat
  user_id : Nat
  date : Nat
  steps : Int
  water_ml : Int
  heart_rate : Int
  sleep_hours : Rat
  notes : Option String
deriving DecidableEq

/-- A row of the `doctor_patient_links` table. -/
structure DoctorPatientLink where
  id : Nat
  doctor_id : Nat
  patient_id : Nat
deriving DecidableEq

/-- A row of the `messages` table (the text as a list of characters, the
timestamp abstracted to a natural). -/
structure MessageRow where
  id : Nat
  sender_id : Nat
  receiver_id : Nat
  message : List Char
  timestamp : Nat
deriving DecidableEq

/-- The payload of an insert into `messages`, as built by the chat pages. -/
structure MessageInsert where
  sender_id : Nat
  receiver_id : Nat
  message : List Char
deriving DecidableEq

/-- A row of the `checkups` table. -/
structure CheckupRow where
  id : Nat
  doctor_id : Nat
  patient_id : Nat
  date : Nat
  purpose : String
  status : CheckupStatus
  notes : Option String
  created_at : Nat
deriving DecidableEq

/-- The tables the row-level-security policies consult. -/
structure Db where
  users : List UserRow
  doctor_patient_links : List DoctorPatientLink

/-- Policy "Patients can manage own health logs" (FOR ALL):
`USING (auth.uid() = user_id)`. -/
def patientsManageOwnHealthLogs (uid : Nat) (l : HealthLogRow) : Bool :=
  decide (uid = l.user_id)

/-- Policy "Doctors can view assigned patients' health logs" (FOR SELECT):
`EXISTS (SELECT 1 FROM doctor_patient_links dpl JOIN users u ON u.id = dpl.doctor_id
WHERE dpl.patient_id = health_logs.user_id AND dpl.doctor_id = auth.uid()
AND u.role = 'doctor')`. -/
def doctorsViewAssignedHealthLogs (db : Db) (uid : Nat) (l : HealthLogRow) : Bool :=
  db.doctor_patient_links.any fun dpl =>
    decide (dpl.patient_id = l.user_id) && decide (dpl.doctor_id = uid) &&
      db.users.any fun u => decide (u.id = dpl.doctor_id) && decide (u.role = Role.doctor)

/-- SELECT on `health_logs` is allowed when any applicable policy passes. -/
def healthLogsSelectDecision (db : Db) (uid : Nat) (l : HealthLogRow) : Decision :=
  if patientsManageOwnHealthLogs uid l || doctorsViewAssignedHealthLogs db uid l then
    Decision.Allow
  else
    Decision.Deny

/-- Policy "Users can send messages" (FOR INSERT):
`WITH CHECK (sender_id = auth.uid())`. -/
def messagesInsertDecision (uid : Nat) (m : MessageInsert) : Decision :=
  if decide (m.sender_id = uid) then Decision.Allow else Decision.Deny

/-- Policy "Users can view messages they sent or received" (FOR SELECT):
`USING (sender_id = auth.uid() OR receiver_id = auth.uid())`. -/
def messagesSelectDecision (uid : Nat) (m : MessageRow) : Decision :=
  if decide (m.sender_id = uid) || decide (m.receiver_id = uid) then
    Decision.Allow
  else
    Decision.Deny

/-- Policy "Doctors can manage checkups for their patients" (FOR ALL):
`USING (doctor_id = auth.uid() OR (patient_id = auth.uid() AND EXISTS
(SELECT 1 FROM users WHERE id = auth.uid() AND role = 'patient')))`. -/
def checkupsDecision (db : Db) (uid : Nat) (c : CheckupRow) : Decision :=
  if decide (c.doctor_id = uid) ||
      (decide (c.patient_id = uid) &&
        db.users.any fun u => decide (u.id = uid) && decide (u.role = Role.patient)) then
    Decision.Allow
  else
    Decision.Deny

/-- JavaScript `String.trim()` over a list of characters: whitespace removed from
both ends. -/
def trimChars (l : List Char) : List Char :=
  ((l.dropWhile Char.isWhitespace).reverse.dropWhile Char.isWhitespace).reverse

/-- The observable outcome of a chat `sendMessage` handler: a row inserted into
`messages`, a silent early return, or an error toast shown to the caller
(the `catch` branch, reached only on a storage failure). -/
inductive SendResult where
  | inserted (row : MessageInsert)
  | ignored
  | errorToast (msg : String)
deriving DecidableEq

/-- `DoctorChat.sendMessage`: early return when
`!newMessage.trim() || !patientId || !user || sending`, otherwise insert
`{sender_id: user.id, receiver_id: patientId, message: newMessage.trim()}`. -/
def sendMessageDoctorChat (user patientId : Option Nat) (sending : Bool)
    (text : List Char) : SendResult :=
  if trimChars text = [] then SendResult.ignored
  else
    match patientId, user with
    | some p, some u =>
      if sending then SendResult.ignored
      else SendResult.inserted ⟨u, p, trimChars text⟩
    | _, _ => SendResult.ignored

/-- `Chat.sendMessage`: early return when
`!newMessage.trim() || !doctor || !user || sending`, otherwise insert
`{sender_id: user.id, receiver_id: doctor.id, message: newMessage.trim()}`. -/
def sendMessageChat (user doctorId : Option Nat) (sending : Bool)
    (text : List Char) : SendResult :=
  if trimChars text = [] then SendResult.ignored
  else
    match doctorId, user with
    | some d, some u =>
      if sending then SendResult.ignored
      else SendResult.inserted ⟨u, d, trimChars text⟩
    | _, _ => SendResult.ignored

/-- Whether a send outcome surfaced an error to the caller. -/
def errorSurfaced : SendResult → Bool
  | SendResult.errorToast _ => true
  | _ => false

/-- `DoctorCheckups.updateCheckupStatus`: unconditionally
`update({ status }).eq('id', checkupId)` over the `checkups` table. -/
def updateCheckupStatus (checkups : List CheckupRow) (checkupId : Nat)
    (status : CheckupStatus) : List CheckupRow :=
  checkups.map fun c => if c.id = checkupId then { c with status := status } else c

/-- The DoctorCheckups UI renders the complete / cancel status buttons only when
`checkup.status === 'upcoming'`. -/
def statusActionButtonsShown (c : CheckupRow) : Bool :=
  decide (c.status = CheckupStatus.upcoming)

/-- The status-change action as exposed by the DoctorCheckups page: the handler
`updateCheckupStatus(checkup.id, status)` can only fire from a button that is
rendered, i.e. when `statusActionButtonsShown` holds for the checkup. -/
def uiUpdateCheckupStatus (checkups : List CheckupRow) (c : CheckupRow)
    (status : CheckupStatus) : List CheckupRow :=
  if statusActionButtonsShown c then updateCheckupStatus checkups c.id status
  else checkups

/-- The `.or(and(sender_id.eq.me,receiver_id.eq.other),and(sender_id.eq.other,receiver_id.eq.me))`
filter shared by `DoctorChat.fetchMessages` and `Chat.fetchMessages`. -/
def messageMatchesThread (me other : Nat) (m : MessageRow) : Bool :=
  (decide (m.sender_id = me) && decide (m.receiver_id = other)) ||
    (decide (m.sender_id = other) && decide (m.receiver_id = me))

/-- Ascending-timestamp order on message rows
(`.order('timestamp', { ascending: true })`). -/
def timestampLe (m1 m2 : MessageRow) : Prop :=
  m1.timestamp ≤ m2.timestamp

instance : DecidableRel timestampLe :=
  fun m1 m2 => Nat.decLe m1.timestamp m2.timestamp

instance : IsTotal MessageRow timestampLe :=
  ⟨fun m1 m2 => Nat.le_total m1.timestamp m2.timestamp⟩

instance : IsTrans MessageRow timestampLe :=
  ⟨fun _ _ _ h1 h2 => Nat.le_trans h1 h2⟩

/-- `fetchMessages` of both chat pages: all rows of `messages` matching the
two-sided thread filter, ordered by timestamp ascending. -/
def fetchMessagesThread (me other : Nat) (msgs : List MessageRow) : List MessageRow :=
  List.insertionSort timestampLe (msgs.filter (messageMatchesThread me other))

/-- Descending-date order on health-log rows
(`.order('date', { ascending: false })`). -/
def dateDescHL (l1 l2 : HealthLogRow) : Prop :=
  l2.date ≤ l1.date

instance : DecidableRel dateDescHL :=
  fun l1 l2 => Nat.decLe l2.date l1.date

instance : IsTotal HealthLogRow dateDescHL :=
  ⟨fun l1 l2 => (Nat.le_total l2.date l1.date)⟩

instance : IsTrans HealthLogRow dateDescHL :=
  ⟨fun _ _ _ h1 h2 => Nat.le_trans h2 h1⟩

/-- `HealthHistory.fetchHealthLogs`: all `health_logs` rows of the given user,
ordered by date descending. -/
def fetchHealthLogs (uid : Nat) (logs : List HealthLogRow) : List HealthLogRow :=
  List.insertionSort dateDescHL (logs.filter fun l => decide (l.user_id = uid))

/-- `DoctorDashboard.fetchPatientHealthLogs`: the same query with `.limit(7)`. -/
def fetchPatientHealthLogs (patientId : Nat) (logs : List HealthLogRow) :
    List HealthLogRow :=
  (List.insertionSort dateDescHL (logs.filter fun l => decide (l.user_id = patientId))).take 7

/-- Value of a decimal digit list read most-significant first. -/
def digitsToNat (ds : List Char) : Nat :=
  ds.foldl (fun acc c => acc * 10 + (c.toNat - '0'.toNat)) 0

/-- Value of a hexadecimal digit, `none` for a non-hex character. -/
def hexDigitVal (c : Char) : Option Nat :=
  if c.isDigit then some (c.toNat - '0'.toNat)
  else if 'a' ≤ c ∧ c ≤ 'f' then some (c.toNat - 'a'.toNat + 10)
  else if 'A' ≤ c ∧ c ≤ 'F' then some (c.toNat - 'A'.toNat + 10)
  else none

/-- Value of a hexadecimal digit list read most-significant first. -/
def hexToNat (ds : List Char) : Nat :=
  ds.foldl (fun acc c => acc * 16 + (hexDigitVal c).getD 0) 0

/-- JavaScript `parseInt(s)` with no radix argument: skip leading whitespace,
optional sign, then either a `0x`/`0X` hexadecimal literal or a run of decimal
digits; `none` models `NaN` (no digits found). -/
def jsParseInt (s : String) : Option Int :=
  let l0 := s.toList.dropWhile Char.isWhitespace
  let signed : Int × List Char :=
    match l0 with
    | '-' :: rest => (-1, rest)
    | '+' :: rest => (1, rest)
    | _ => (1, l0)
  let sign := signed.1
  let l1 := signed.2
  match l1 with
  | '0' :: c :: rest =>
    if c = 'x' ∨ c = 'X' then
      let ds := rest.takeWhile fun ch => (hexDigitVal ch).isSome
      if ds = [] then none else some (sign * (hexToNat ds : Int))
    else
      some (sign * (digitsToNat (l1.takeWhile Char.isDigit) : Int))
  | _ =>
    let ds := l1.takeWhile Char.isDigit
    if ds = [] then none else some (sign * (digitsToNat ds : Int))

/-- JavaScript `parseFloat(s)`: skip leading whitespace, optional sign, decimal
digits with an optional fractional part and an optional exponent; `none` models
`NaN` (no digits found). The non-finite literal `Infinity` is outside the model
(it contains no digits and the health form never produces it). -/
def jsParseFloat (s : String) : Option Rat :=
  let l0 := s.toList.dropWhile Char.isWhitespace
  let signed : Rat × List Char :=
    match l0 with
    | '-' :: rest => (-1, rest)
    | '+' :: rest => (1, rest)
    | _ => (1, l0)
  let sign := signed.1
  let l1 := signed.2
  let intDs := l1.takeWhile Char.isDigit
  let l2 := l1.dropWhile Char.isDigit
  let fracSplit : List Char × List Char :=
    match l2 with
    | '.' :: rest => (rest.takeWhile Char.isDigit, rest.dropWhile Char.isDigit)
    | _ => ([], l2)
  let fracDs := fracSplit.1
  let l3 := fracSplit.2
  if intDs = [] ∧ fracDs = [] then none
  else
    let mantissa : Rat :=
      sign * ((digitsToNat intDs : Rat) + (digitsToNat fracDs : Rat) / (10 : Rat) ^ fracDs.length)
    match l3 with
    | c :: rest =>
      if c = 'e' ∨ c = 'E' then
        let esigned : Bool × List Char :=
          match rest with
          | '-' :: r => (true, r)
          | '+' :: r => (false, r)
          | _ => (false, rest)
        let eds := esigned.2.takeWhile Char.isDigit
        if eds = [] then some mantissa
        else if esigned.1 then some (mantissa / (10 : Rat) ^ digitsToNat eds)
        else some (mantissa * (10 : Rat) ^ digitsToNat eds)
      else some mantissa
    | [] => some mantissa

/-- `parseInt(s) || 0`: `NaN` (and `0` itself) collapse to `0`. -/
def orZeroInt (x : Option Int) : Int :=
  match x with
  | some n => n
  | none => 0

/-- `parseFloat(s) || 0`: `NaN` (and `0` itself) collapse to `0`. -/
def orZeroRat (x : Option Rat) : Rat :=
  match x with
  | some q => q
  | none => 0

/-- The LogHealth form state: every metric field is a free string. -/
structure LogHealthFormData where
  date : String
  steps : String
  water_ml : String
  heart_rate : String
  sleep_hours : String
  notes : String
deriving DecidableEq

/-- The payload of an insert into `health_logs`, as built by `LogHealth.handleSubmit`. -/
structure HealthLogInsert where
  user_id : Nat
  date : String
  steps : Int
  water_ml : Int
  heart_rate : Int
  sleep_hours : Rat
  notes : Option String
deriving DecidableEq

/-- `LogHealth.handleSubmit`: returns early when no user is logged in, otherwise
inserts a row with `parseInt(field) || 0` for the integer metrics,
`parseFloat(sleep_hours) || 0` for sleep, and `notes || null`. -/
def handleSubmit (user : Option UserRow) (formData : LogHealthFormData) :
    Option HealthLogInsert :=
  match user with
  | none => none
  | some u =>
    some
      { user_id := u.id
        date := formData.date
        steps := orZeroInt (jsParseInt formData.steps)
        water_ml := orZeroInt (jsParseInt formData.water_ml)
        heart_rate := orZeroInt (jsParseInt formData.heart_rate)
        sleep_hours := orZeroRat (jsParseFloat formData.sleep_hours)
        notes := if formData.notes = "" then none else some formData.notes }

/-- The four numeric metric fields of the health-log form. -/
inductive MetricField where
  | steps
  | water_ml
  | heart_rate
  | sleep_hours
deriving DecidableEq

/-- The raw form input for a metric field. -/
def metricInput (fd : LogHealthFormData) : MetricField → String
  | MetricField.steps => fd.steps
  | MetricField.water_ml => fd.water_ml
  | MetricField.heart_rate => fd.heart_rate
  | MetricField.sleep_hours => fd.sleep_hours

/-- Whether the form input for a metric field fails to parse as a number under
the parser the code applies to it (`parseInt` for the integer metrics,
`parseFloat` for sleep hours). -/
def metricUnparseable (fd : LogHealthFormData) : MetricField → Prop
  | MetricField.steps => jsParseInt fd.steps = none
  | MetricField.water_ml => jsParseInt fd.water_ml = none
  | MetricField.heart_rate => jsParseInt fd.heart_rate = none
  | MetricField.sleep_hours => jsParseFloat fd.sleep_hours = none

instance (fd : LogHealthFormData) (f : MetricField) : Decidable (metricUnparseable fd f) := by
  cases f <;> simp only [metricUnparseable] <;> infer_instance

/-- The stored value of a metric field in an inserted row, cast into `Rat` so the
four metrics can be treated uniformly. -/
def metricValue (row : HealthLogInsert) : MetricField → Rat
  | MetricField.steps => (row.steps : Rat)
  | MetricField.water_ml => (row.water_ml : Rat)
  | MetricField.heart_rate => (row.heart_rate : Rat)
  | MetricField.sleep_hours => row.sleep_hours

/-- The demo doctor from the migration's seed data (uuid abbreviated to 1). -/
def demoDoctor : UserRow :=
  ⟨1, "doctor@gmail.com", "Dr. Sarah Johnson", Role.doctor, none⟩

/-- The demo patient from the migration's seed data (uuid abbreviated to 2). -/
def demoPatient : UserRow :=
  ⟨2, "patient@gmail.com", "John Smith", Role.patient, none⟩

/-- A database holding the two demo principals and their pairing link. -/
def demoDb : Db :=
  ⟨[demoDoctor, demoPatient], [⟨1, 1, 2⟩]⟩

/-- A database holding the two demo principals and no pairing link. -/
def demoDbUnlinked : Db :=
  ⟨[demoDoctor, demoPatient], []⟩

/-- A sample health log owned by the demo patient. -/
def demoLog : HealthLogRow :=
  ⟨10, 2, 100, 8500, 2000, 72, 15/2, none⟩

theorem dropWhile_dropWhile_same {α : Type} (p : α → Bool) (l : List α) :
    (l.dropWhile p).dropWhile p = l.dropWhile p := by
  induction l with
  | nil => rfl
  | cons a t ih =>
    cases hpa : p a <;> simp [List.dropWhile_cons, hpa, ih]

theorem head?_dropWhile_not {α : Type} (p : α → Bool) (l : List α) (c : α)
    (h : (l.dropWhile p).head? = some c) : p c = false := by
  induction l with
  | nil => simp at h
  | cons a t ih =>
    cases hpa : p a
    · rw [List.dropWhile_cons, hpa] at h
      simp at h
      rw [← h]
      exact hpa
    · rw [List.dropWhile_cons, hpa] at h
      exact ih (by simpa using h)

theorem dropWhile_eq_self_of_head {α : Type} (p : α → Bool) (l : List α)
    (h : ∀ c, l.head? = some c → p c = false) : l.dropWhile p = l := by
  cases l with
  | nil => rfl
  | cons a t =>
    have ha : p a = false := h a rfl
    simp [List.dropWhile_cons, ha]

theorem trimChars_prefix (l : List Char) :
    trimChars l <+: l.dropWhile Char.isWhitespace := by
  rw [← List.reverse_suffix, trimChars, List.reverse_reverse]
  exact List.dropWhile_suffix _

theorem trimChars_head_not_ws (l : List Char) (c : Char)
    (hc : (trimChars l).head? = some c) : c.isWhitespace = false := by
  obtain ⟨t, ht⟩ := trimChars_prefix l
  have hhead : (l.dropWhile Char.isWhitespace).head? = some c := by
    rw [← ht]
    cases hl : trimChars l with
    | nil => rw [hl] at hc; simp at hc
    | cons a r =>
      rw [hl] at hc
      simp at hc
      simp [hc]
  exact head?_dropWhile_not _ _ _ hhead

theorem trimChars_idem (l : List Char) : trimChars (trimChars l) = trimChars l := by
  have h1 : (trimChars l).dropWhile Char.isWhitespace = trimChars l :=
    dropWhile_eq_self_of_head _ _ (fun c hc => trimChars_head_not_ws l c hc)
  calc trimChars (trimChars l)
      = (((trimChars l).dropWhile Char.isWhitespace).reverse.dropWhile
          Char.isWhitespace).reverse := rfl
    _ = ((trimChars l).reverse.dropWhile Char.isWhitespace).reverse := by rw [h1]
    _ = (((((l.dropWhile Char.isWhitespace).reverse.dropWhile
          Char.isWhitespace).reverse).reverse).dropWhile Char.isWhitespace).reverse := rfl
    _ = (((l.dropWhile Char.isWhitespace).reverse.dropWhile Char.isWhitespace).dropWhile
          Char.isWhitespace).reverse := by rw [List.reverse_reverse]
    _ = ((l.dropWhile Char.isWhitespace).reverse.dropWhile Char.isWhitespace).reverse := by
          rw [dropWhile_dropWhile_same]
    _ = trimChars l := rfl

theorem decision_ite_allow_iff (b : Bool) :
    (if b then Decision.Allow else Decision.Deny) = Decision.Allow ↔ b = true := by
  cases b <;> simp

theorem decision_ite_deny (b : Bool) (h : b = false) :
    (if b then Decision.Allow else Decision.Deny) = Decision.Deny := by
  simp [h]

/-- Claim C1: for every doctor D, patient P, and health log L owned by P, the
read decision for D on L is Allow if and only if a pairing link with
doctor_id = D.id and patient_id = P.id exists; with no such link it is Deny. -/
theorem doctor_healthlog_read_iff_paired (db : Db) (D P : UserRow) (L : HealthLogRow)
    (huniq : ∀ u1 ∈ db.users, ∀ u2 ∈ db.users, u1.id = u2.id → u1 = u2)
    (hD : D ∈ db.users) (hDrole : D.role = Role.doctor)
    (hP : P ∈ db.users) (hProle : P.role = Role.patient)
    (hL : L.user_id = P.id) :
    (healthLogsSelectDecision db D.id L = Decision.Allow ↔
      ∃ dpl ∈ db.doctor_patient_links, dpl.doctor_id = D.id ∧ dpl.patient_id = P.id) ∧
    ((¬ ∃ dpl ∈ db.doctor_patient_links, dpl.doctor_id = D.id ∧ dpl.patient_id = P.id) →
      healthLogsSelectDecision db D.id L = Decision.Deny) := by
  have hDP : D.id ≠ P.id := by
    intro h
    have hEq : D = P := huniq D hD P hP h
    rw [hEq, hProle] at hDrole
    exact Role.noConfusion hDrole
  have key : (patientsManageOwnHealthLogs D.id L ||
      doctorsViewAssignedHealthLogs db D.id L) = true ↔
      ∃ dpl ∈ db.doctor_patient_links, dpl.doctor_id = D.id ∧ dpl.patient_id = P.id := by
    simp only [patientsManageOwnHealthLogs, doctorsViewAssignedHealthLogs, Bool.or_eq_true,
      List.any_eq_true, Bool.and_eq_true, decide_eq_true_eq]
    constructor
    · rintro (h | ⟨dpl, hmem, ⟨⟨hpat, hdoc⟩, u, humem, huid, hurole⟩⟩)
      · exact absurd (h.trans hL) hDP
      · exact ⟨dpl, hmem, hdoc, hpat.trans hL⟩
    · rintro ⟨dpl, hmem, hdoc, hpat⟩
      refine Or.inr ⟨dpl, hmem, ⟨⟨hpat.trans hL.symm, hdoc⟩, D, hD, hdoc.symm, hDrole⟩⟩
  constructor
  · exact (decision_ite_allow_iff _).trans key
  · intro hn
    apply decision_ite_deny
    cases hcond : (patientsManageOwnHealthLogs D.id L ||
        doctorsViewAssignedHealthLogs db D.id L)
    · rfl
    · exact absurd (key.mp hcond) hn

/-- Witness for C1 at the migration's demo data: the paired demo doctor reading
the demo patient's log. -/
theorem doctor_healthlog_read_iff_paired_witness :
    (healthLogsSelectDecision demoDb demoDoctor.id demoLog = Decision.Allow ↔
      ∃ dpl ∈ demoDb.doctor_patient_links, dpl.doctor_id = demoDoctor.id ∧
        dpl.patient_id = demoPatient.id) ∧
    ((¬ ∃ dpl ∈ demoDb.doctor_patient_links, dpl.doctor_id = demoDoctor.id ∧
        dpl.patient_id = demoPatient.id) →
      healthLogsSelectDecision demoDb demoDoctor.id demoLog = Decision.Deny) :=
  doctor_healthlog_read_iff_paired demoDb demoDoctor demoPatient demoLog
    (by decide) (by decide) rfl (by decide) rfl rfl

/-- Claim C2: a message insert is allowed exactly when the new row's sender_id
equals the inserting principal's id, and rejected otherwise. -/
theorem message_insert_allowed_iff_sender (uid : Nat) (m : MessageInsert) :
    (messagesInsertDecision uid m = Decision.Allow ↔ m.sender_id = uid) ∧
    (m.sender_id ≠ uid → messagesInsertDecision uid m = Decision.Deny) := by
  constructor
  · unfold messagesInsertDecision
    by_cases h : m.sender_id = uid <;> simp [h]
  · intro h
    unfold messagesInsertDecision
    simp [h]

/-- Witness for C2: a forged sender is denied, an honest sender is allowed. -/
theorem message_insert_allowed_iff_sender_witness :
    messagesInsertDecision 1 ⟨2, 1, ['h']⟩ = Decision.Deny ∧
    messagesInsertDecision 1 ⟨1, 2, ['h']⟩ = Decision.Allow :=
  ⟨(message_insert_allowed_iff_sender 1 ⟨2, 1, ['h']⟩).2 (by decide),
   (message_insert_allowed_iff_sender 1 ⟨1, 2, ['h']⟩).1.mpr rfl⟩

/-- Claim C3: a message is readable by its sender and by its receiver, and by no
third principal. -/
theorem message_read_sender_receiver_only (m : MessageRow) (x : Nat)
    (hx1 : x ≠ m.sender_id) (hx2 : x ≠ m.receiver_id) :
    messagesSelectDecision m.sender_id m = Decision.Allow ∧
    messagesSelectDecision m.receiver_id m = Decision.Allow ∧
    messagesSelectDecision x m = Decision.Deny := by
  refine ⟨?_, ?_, ?_⟩
  · simp [messagesSelectDecision]
  · simp [messagesSelectDecision]
  · simp [messagesSelectDecision, Ne.symm hx1, Ne.symm hx2]

/-- Witness for C3 at a concrete message between principals 1 and 2 and a third
principal 3. -/
theorem message_read_sender_receiver_only_witness :
    messagesSelectDecision 1 ⟨5, 1, 2, ['h'], 0⟩ = Decision.Allow ∧
    messagesSelectDecision 2 ⟨5, 1, 2, ['h'], 0⟩ = Decision.Allow ∧
    messagesSelectDecision 3 ⟨5, 1, 2, ['h'], 0⟩ = Decision.Deny :=
  message_read_sender_receiver_only ⟨5, 1, 2, ['h'], 0⟩ 3 (by decide) (by decide)

/-- Claim C5: access to a checkup is allowed exactly for the principal matching
its doctor_id, or matching its patient_id while holding the patient role. -/
theorem checkup_access_iff (db : Db) (A : UserRow) (c : CheckupRow)
    (huniq : ∀ u1 ∈ db.users, ∀ u2 ∈ db.users, u1.id = u2.id → u1 = u2)
    (hA : A ∈ db.users) :
    (checkupsDecision db A.id c = Decision.Allow ↔
      (A.id = c.doctor_id ∨ (A.id = c.patient_id ∧ A.role = Role.patient))) ∧
    (¬ (A.id = c.doctor_id ∨ (A.id = c.patient_id ∧ A.role = Role.patient)) →
      checkupsDecision db A.id c = Decision.Deny) := by
  have key : (decide (c.doctor_id = A.id) ||
      (decide (c.patient_id = A.id) &&
        db.users.any fun u => decide (u.id = A.id) && decide (u.role = Role.patient))) = true ↔
      (A.id = c.doctor_id ∨ (A.id = c.patient_id ∧ A.role = Role.patient)) := by
    simp only [Bool.or_eq_true, Bool.and_eq_true, List.any_eq_true, decide_eq_true_eq]
    constructor
    · rintro (h | ⟨hpat, u, hu, huid, hurole⟩)
      · exact Or.inl h.symm
      · have hu_eq : u = A := huniq u hu A hA huid
        exact Or.inr ⟨hpat.symm, hu_eq ▸ hurole⟩
    · rintro (h | ⟨hpat, hrole⟩)
      · exact Or.inl h.symm
      · exact Or.inr ⟨hpat.symm, A, hA, rfl, hrole⟩
  constructor
  · exact (decision_ite_allow_iff _).trans key
  · intro hn
    apply decision_ite_deny
    cases hcond : (decide (c.doctor_id = A.id) ||
      (decide (c.patient_id = A.id) &&
        db.users.any fun u => decide (u.id = A.id) && decide (u.role = Role.patient)))
    · rfl
    · exact absurd (key.mp hcond) hn

/-- Witness for C5: the demo patient accessing their own demo checkup. -/
theorem checkup_access_iff_witness :
    (checkupsDecision demoDb demoPatient.id ⟨1, 1, 2, 100, "Checkup", CheckupStatus.upcoming,
        none, 0⟩ = Decision.Allow ↔
      (demoPatient.id = 1 ∨ (demoPatient.id = 2 ∧ demoPatient.role = Role.patient))) ∧
    (¬ (demoPatient.id = 1 ∨ (demoPatient.id = 2 ∧ demoPatient.role = Role.patient)) →
      checkupsDecision demoDb demoPatient.id ⟨1, 1, 2, 100, "Checkup",
        CheckupStatus.upcoming, none, 0⟩ = Decision.Deny) :=
  checkup_access_iff demoDb demoPatient ⟨1, 1, 2, 100, "Checkup", CheckupStatus.upcoming,
    none, 0⟩ (by decide) (by decide)

/-- Counterexample to claim C4 as stated: `updateCheckupStatus` applied to a
checkup already in the terminal `completed` state does change its status to
`cancelled` — the update is unconditional at the storage call. -/
theorem updateCheckupStatus_terminal_changes_cex :
    updateCheckupStatus [⟨1, 1, 2, 100, "Checkup", CheckupStatus.completed, none, 0⟩]
        1 CheckupStatus.cancelled =
      [⟨1, 1, 2, 100, "Checkup", CheckupStatus.cancelled, none, 0⟩] ∧
    updateCheckupStatus [⟨1, 1, 2, 100, "Checkup", CheckupStatus.completed, none, 0⟩]
        1 CheckupStatus.cancelled ≠
      [⟨1, 1, 2, 100, "Checkup", CheckupStatus.completed, none, 0⟩] := by
  decide

/-- Claim C4 (amended): the status-change action as exposed by the DoctorCheckups
UI — whose buttons are rendered only for `upcoming` checkups — leaves a checkup
in a terminal state unchanged; the raw `updateCheckupStatus` call itself is
unconditional. -/
theorem checkup_terminal_ui_action_noop (cs : List CheckupRow) (c : CheckupRow)
    (s : CheckupStatus)
    (h : c.status = CheckupStatus.completed ∨ c.status = CheckupStatus.cancelled) :
    uiUpdateCheckupStatus cs c s = cs := by
  unfold uiUpdateCheckupStatus statusActionButtonsShown
  rcases h with h | h <;> simp [h]

/-- Witness for amended C4: the guarded action on a completed checkup. -/
theorem checkup_terminal_ui_action_noop_witness :
    uiUpdateCheckupStatus [⟨1, 1, 2, 100, "Checkup", CheckupStatus.completed, none, 0⟩]
        ⟨1, 1, 2, 100, "Checkup", CheckupStatus.completed, none, 0⟩ CheckupStatus.cancelled =
      [⟨1, 1, 2, 100, "Checkup", CheckupStatus.completed, none, 0⟩] :=
  checkup_terminal_ui_action_noop _ _ _ (Or.inl rfl)

/-- Counterexample to claim C6 as stated: sending whitespace-only text does not
surface any error to the caller — both handlers return silently before reaching
the insert or the error toast. -/
theorem send_empty_text_no_error_cex :
    errorSurfaced (sendMessageDoctorChat (some 1) (some 2) false [' ']) = false ∧
    errorSurfaced (sendMessageChat (some 2) (some 1) false [' ']) = false := by
  decide

/-- Claim C6 (amended): when the text is empty after trimming, the send operation
creates no message row, but as a silent no-op: no validation error is surfaced. -/
theorem send_empty_text_silent_noop (user other : Option Nat) (sending : Bool)
    (text : List Char) (h : trimChars text = []) :
    sendMessageDoctorChat user other sending text = SendResult.ignored ∧
    sendMessageChat user other sending text = SendResult.ignored := by
  unfold sendMessageDoctorChat sendMessageChat
  simp [h]

/-- Witness for amended C6 at whitespace-only input. -/
theorem send_empty_text_silent_noop_witness :
    sendMessageDoctorChat (some 1) (some 2) false [' '] = SendResult.ignored ∧
    sendMessageChat (some 1) (some 2) false [' '] = SendResult.ignored :=
  send_empty_text_silent_noop (some 1) (some 2) false [' '] (by decide)

/-- Claim C7: the thread fetch returns exactly the messages whose
(sender, receiver) pair is (a,b) or (b,a), ordered by timestamp ascending. -/
theorem thread_exactly_pair_sorted (a b : Nat) (msgs : List MessageRow) :
    (∀ m, m ∈ fetchMessagesThread a b msgs ↔
      (m ∈ msgs ∧ ((m.sender_id = a ∧ m.receiver_id = b) ∨
        (m.sender_id = b ∧ m.receiver_id = a)))) ∧
    (fetchMessagesThread a b msgs).Perm (msgs.filter (messageMatchesThread a b)) ∧
    List.Pairwise (fun m1 m2 => m1.timestamp ≤ m2.timestamp)
      (fetchMessagesThread a b msgs) := by
  refine ⟨?_, ?_, ?_⟩
  · intro m
    unfold fetchMessagesThread
    rw [List.Perm.mem_iff (List.perm_insertionSort _ _)]
    simp [messageMatchesThread, List.mem_filter, and_assoc]
  · exact List.perm_insertionSort _ _
  · exact List.sorted_insertionSort timestampLe _

/-- Claim C8: the health-log history returns exactly the given patient's rows
ordered by date descending, and the doctor-dashboard variant requests only the
most recent 7 of them. -/
theorem history_desc_and_dashboard_seven (uid : Nat) (logs : List HealthLogRow) :
    (∀ l, l ∈ fetchHealthLogs uid logs ↔ (l ∈ logs ∧ l.user_id = uid)) ∧
    List.Pairwise (fun l1 l2 => l2.date ≤ l1.date) (fetchHealthLogs uid logs) ∧
    fetchPatientHealthLogs uid logs = (fetchHealthLogs uid logs).take 7 ∧
    (fetchPatientHealthLogs uid logs).length ≤ 7 := by
  refine ⟨?_, ?_, rfl, ?_⟩
  · intro l
    unfold fetchHealthLogs
    rw [List.Perm.mem_iff (List.perm_insertionSort _ _)]
    simp [List.mem_filter]
  · exact List.sorted_insertionSort dateDescHL _
  · unfold fetchPatientHealthLogs
    exact List.length_take_le 7 _

/-- Claim C9: a health-log submission whose numeric metric field is empty or not
parseable stores 0 for that metric, and the submission is not rejected. -/
theorem loghealth_unparseable_metric_stores_zero (u : UserRow) (fd : LogHealthFormData)
    (f : MetricField) (h : metricInput fd f = "" ∨ metricUnparseable fd f) :
    ∃ row, handleSubmit (some u) fd = some row ∧ metricValue row f = 0 := by
  refine ⟨_, rfl, ?_⟩
  have hnone : metricUnparseable fd f := by
    rcases h with h | h
    · cases f <;> simp only [metricInput] at h <;>
        simp only [metricUnparseable] <;> rw [h] <;> decide
    · exact h
  cases f <;> simp only [metricUnparseable] at hnone <;>
    simp [metricValue, handleSubmit, hnone, orZeroInt, orZeroRat]

/-- Witness for C9: an unparseable steps field stores 0 steps. -/
theorem loghealth_unparseable_metric_stores_zero_witness :
    ∃ row, handleSubmit (some demoPatient)
        ⟨"2025-07-09", "abc", "2000", "72", "7.5", ""⟩ = some row ∧
      metricValue row MetricField.steps = 0 :=
  loghealth_unparseable_metric_stores_zero demoPatient
    ⟨"2025-07-09", "abc", "2000", "72", "7.5", ""⟩ MetricField.steps (Or.inr (by decide))

/-- Claim C10: every message row created through either chat handler stores the
trimmed input text, hence is non-empty and equal to its own trimmed form. -/
theorem message_stored_trimmed_nonempty (user other : Option Nat) (sending : Bool)
    (text : List Char) (row : MessageInsert) :
    (sendMessageDoctorChat user other sending text = SendResult.inserted row →
      row.message ≠ [] ∧ trimChars row.message = row.message) ∧
    (sendMessageChat user other sending text = SendResult.inserted row →
      row.message ≠ [] ∧ trimChars row.message = row.message) := by
  constructor <;> intro h
  · unfold sendMessageDoctorChat at h
    split at h
    · exact absurd h (by simp)
    · next ht =>
      split at h
      · split at h
        · exact absurd h (by simp)
        · injection h with h'
          rw [← h']
          exact ⟨ht, trimChars_idem text⟩
      · exact absurd h (by simp)
  · unfold sendMessageChat at h
    split at h
    · exact absurd h (by simp)
    · next ht =>
      split at h
      · split at h
        · exact absurd h (by simp)
        · injection h with h'
          rw [← h']
          exact ⟨ht, trimChars_idem text⟩
      · exact absurd h (by simp)

/-- Witness for C10 at a concrete successful send. -/
theorem message_stored_trimmed_nonempty_witness :
    (['h', 'i'] : List Char) ≠ [] ∧ trimChars ['h', 'i'] = ['h', 'i'] :=
  (message_stored_trimmed_nonempty (some 1) (some 2) false ['h', 'i']
    ⟨1, 2, ['h', 'i']⟩).1 (by decide)
